import Mathlib

/-
Verification of the two-phase ID3v2 tag parsing engine (parse.go).

The byte source (an *os.File in the original) is modelled as an in-memory
byte list together with a read position and a log of every byte offset read,
so that claims about which bytes a phase touches are expressible.  Machine
integers (int64) are modelled as Int; byte values as Nat.
-/

namespace Id3v2

/-- A seekable byte source: the data, the current read position, and an
instrumentation log recording the offset of every byte that has been read,
in order. -/
structure File where
  data : List Nat
  pos : Nat
  reads : List Nat
deriving Repr, DecidableEq

/-- Seek to an absolute offset (os.File.Seek with SEEK_SET); a negative
offset is an error, seeking past end-of-data is allowed. -/
def File.seek (f : File) (off : Int) : Except String File :=
  if off < 0 then .error "seek: negative position"
  else .ok { f with pos := off.toNat }

/-- Read up to n bytes from the current position, advancing the position and
logging the offset of every byte actually read. -/
def File.readUpTo (f : File) (n : Nat) : List Nat × File :=
  let taken := (f.data.drop f.pos).take n
  (taken,
   { f with
       pos := f.pos + taken.length
       reads := f.reads ++ (List.range taken.length).map (f.pos + ·) })

/-- Modelled from the spec: `util.ParseSize` (package util, not in parse.go)
decodes a synchsafe integer, folding each byte's low 7 bits as one
base-128 digit, most-significant byte first. -/
def ParseSize (data : List Nat) : Int :=
  data.foldl (fun size b => size * 128 + ((b % 128 : Nat) : Int)) 0

def frameHeaderSize : Nat := 10

/-- Modelled from the spec: the container header is 10 bytes. -/
def tagHeaderSize : Nat := 10

structure frameHeader where
  ID : List Nat
  FrameSize : Int
deriving Repr, DecidableEq

structure frameCoordinates where
  Len : Int
  Pos : Int
deriving Repr, DecidableEq

/-- Association-list model of a Go map with byte-string keys. -/
def mapFind {α : Type} (m : List (List Nat × α)) (id : List Nat) : Option α :=
  match m with
  | [] => none
  | p :: rest => if p.1 = id then some p.2 else mapFind rest id

/-- Go map assignment m[id] = v. -/
def mapStore {α : Type} (m : List (List Nat × α)) (id : List Nat) (v : α) :
    List (List Nat × α) :=
  match m with
  | [] => [(id, v)]
  | p :: rest => if p.1 = id then (id, v) :: rest else p :: mapStore rest id v

/-- Go map deletion delete(m, id). -/
def mapErase {α : Type} (m : List (List Nat × α)) (id : List Nat) :
    List (List Nat × α) :=
  match m with
  | [] => []
  | p :: rest => if p.1 = id then mapErase rest id else p :: mapErase rest id

/-- The four payload decoders that findParseFunc can select (the decoder
bodies live outside parse.go; theorems quantify over their behaviour). -/
inductive ParseFuncKind where
  | text
  | picture
  | comment
  | lyrics
deriving Repr, DecidableEq

/-- A decoded frame value. -/
inductive Framer where
  | frame : List Nat → Framer
deriving Repr, DecidableEq

/-- A decoder interpretation: given the bytes visible through the bounded
reader, either fail or return a decoded frame together with the number of
bytes actually consumed from the reader. -/
def Decoders : Type := ParseFuncKind → List Nat → Except String (Framer × Nat)

/-- Modelled from the spec: the v2.3 Version ID Table (declared outside
parse.go) mapping human-readable names to on-disk identifiers; the three
identifiers consulted by findParseFunc are APIC, COMM and USLT. -/
def V23IDs : String → List Nat := fun name =>
  if name = "Attached picture" then [65, 80, 73, 67]
  else if name = "Comments" then [67, 79, 77, 77]
  else if name = "Unsynchronised lyrics/text transcription" then [85, 83, 76, 84]
  else []

/-- Modelled from the spec: the v2.4 Version ID Table; for the three
identifiers consulted by findParseFunc the entries agree with v2.3. -/
def V24IDs : String → List Nat := fun name =>
  if name = "Attached picture" then [65, 80, 73, 67]
  else if name = "Comments" then [67, 79, 77, 77]
  else if name = "Unsynchronised lyrics/text transcription" then [85, 83, 76, 84]
  else []

/-- The tag: coordinate index, decoded-frame store, byte source, declared
size and version.  The Go struct keeps decoded values in `frames` and
`sequences`; AddFrame is outside parse.go, so the store is modelled from the
spec as one multimap keeping every value per identifier in order. -/
structure Tag where
  framesCoords : List (List Nat × List frameCoordinates)
  frames : List (List Nat × List Framer)
  file : File
  originalSize : Int
  version : Nat
  ids : String → List Nat

def newTag (file : File) (originalSize : Int) (version : Nat) : Tag :=
  { framesCoords := []
    frames := []
    file := file
    originalSize := originalSize
    version := version
    ids := if version = 3 then V23IDs else V24IDs }

/-- Modelled from the spec: Tag.ID resolves a human-readable name through
the version-selected ID table. -/
def Tag.ID (t : Tag) (name : String) : List Nat := t.ids name

def id3Magic : List Nat := [73, 68, 51]

structure tagHeader where
  Version : Nat
  FramesSize : Int
deriving Repr, DecidableEq

/-- Modelled from the spec: `parseHeader` (header.go, not in parse.go) reads
the 10 leading bytes; if the 3-byte magic does not match it returns none
(not an error); a header truncated after a matching magic is an error;
otherwise the version is byte 3 and the frame-region size is the synchsafe
field at bytes 6-9. -/
def parseHeader (f : File) : Except String (Option tagHeader) × File :=
  let r := f.readUpTo tagHeaderSize
  if r.1.take 3 ≠ id3Magic then (.ok none, r.2)
  else if r.1.length < tagHeaderSize then
    (.error "size of tag header is less than expected", r.2)
  else
    (.ok (some { Version := r.1.getD 3 0, FramesSize := ParseSize ((r.1.drop 6).take 4) }), r.2)

/-- parseFrameHeader: read 10 bytes through a LimitedReader; fewer than 10
bytes is the truncated-frame-header error; otherwise bytes 0-3 are the
identifier and bytes 4-7 the synchsafe size (bytes 8-9, the flags, are
ignored).  The file is returned in both cases since the read advances it. -/
def parseFrameHeader (f : File) : Except String frameHeader × File :=
  let r := f.readUpTo frameHeaderSize
  if r.1.length < frameHeaderSize then
    (.error "Size of frame header is less than expected", r.2)
  else
    (.ok { ID := r.1.take 4, FrameSize := ParseSize ((r.1.drop 4).take 4) }, r.2)

/-- The body of findAllFrames, with explicit fuel; each iteration seeks to
the cursor, parses one frame header, records the coordinates and advances
the cursor past the payload without reading it.  An error is returned
together with the tag state reached so far (the Go method mutates the tag
in place and returns only the error). -/
def findAllFramesLoop : Nat → Tag → Int → Option (Tag × Option String)
  | 0, _, _ => none
  | fuel + 1, t, pos =>
    if pos < t.originalSize then
      match File.seek t.file pos with
      | .error e => some (t, some e)
      | .ok f1 =>
        match parseFrameHeader f1 with
        | (.error e, f2) => some ({ t with file := f2 }, some e)
        | (.ok header, f2) =>
          let pos1 := pos + (frameHeaderSize : Int)
          let fc : frameCoordinates := { Len := header.FrameSize, Pos := pos1 }
          let fcs := (mapFind t.framesCoords header.ID).getD []
          let t2 := { t with
            file := f2
            framesCoords := mapStore t.framesCoords header.ID (fcs ++ [fc]) }
          findAllFramesLoop fuel t2 (pos1 + header.FrameSize)
    else some (t, none)

/-- findAllFrames: run the scan loop from the first byte after the container
header.  originalSize.toNat + 1 units of fuel always suffice (the cursor
advances by at least 10 per iteration); the fallback branch is unreachable. -/
def findAllFrames (t : Tag) : Tag × Option String :=
  match findAllFramesLoop (t.originalSize.toNat + 1) t (tagHeaderSize : Int) with
  | some r => r
  | none => (t, some "scan did not terminate")

/-- parseTag: nil-file check, header parse (wrapping its error), empty tag
when the magic is absent, version check, then the structural scan.  The Go
function returns the pair (tag pointer, error); on a scan error the
partially built tag is returned together with the error. -/
def parseTag (file : Option File) : Option Tag × Option String :=
  match file with
  | none => (none, some "Invalid file: file is nil")
  | some f =>
    match parseHeader f with
    | (.error e, _) => (none, some ("Trying to parse tag header: " ++ e))
    | (.ok none, f1) => (some (newTag f1 0 4), none)
    | (.ok (some header), f1) =>
      if header.Version < 3 then (none, some "Unsupported version of ID3 tag")
      else
        let t := newTag f1 ((tagHeaderSize : Nat) + header.FramesSize) header.Version
        let r := findAllFrames t
        (some r.1, r.2)

/-- findParseFunc: an identifier starting with the text sentinel byte 84
(the character T) selects the text decoder; otherwise the identifier is
compared, in order, with the version-resolved picture, comment and lyrics
identifiers; anything else selects no decoder.  (The scan only produces
4-byte identifiers, so the empty-identifier case never arises.) -/
def findParseFunc (t : Tag) (id : List Nat) : Option ParseFuncKind :=
  if id.head? = some 84 then some .text
  else if id = t.ID "Attached picture" then some .picture
  else if id = t.ID "Comments" then some .comment
  else if id = t.ID "Unsynchronised lyrics/text transcription" then some .lyrics
  else none

/-- The bytes a decoder can observe for one coordinate: the payload range
starting at fc.Pos, capped at fc.Len bytes by the LimitedReader. -/
def frameSlice (data : List Nat) (fc : frameCoordinates) : List Nat :=
  (data.drop fc.Pos.toNat).take fc.Len.toNat

/-- The decoded value for one coordinate, none on decode failure. -/
def decodeOk (D : Decoders) (pf : ParseFuncKind) (data : List Nat)
    (fc : frameCoordinates) : Option Framer :=
  match D pf (frameSlice data fc) with
  | .ok (fr, _) => some fr
  | .error _ => none

/-- readFrame: seek to the recorded position (the Go code discards the Seek
result), run the decoder through a reader capped at fc.Len bytes, and panic
(modelled as the error case) if the decoder fails.  The file advances by the
bytes the decoder consumed, which are logged. -/
def readFrame (D : Decoders) (pf : ParseFuncKind) (f : File)
    (fc : frameCoordinates) : Except String (Framer × File) :=
  let f1 := match f.seek fc.Pos with
    | .ok f2 => f2
    | .error _ => f
  let visible := (f1.data.drop f1.pos).take fc.Len.toNat
  match D pf visible with
  | .error e => .error e
  | .ok (fr, n) =>
    let consumed := min n visible.length
    .ok (fr,
      { f1 with
          pos := f1.pos + consumed
          reads := f1.reads ++ (List.range consumed).map (f1.pos + ·) })

/-- Modelled from the spec: `Tag.AddFrame` (outside parse.go) appends the
decoded value to the store under the identifier, keeping every occurrence in
order rather than overwriting. -/
def AddFrame (t : Tag) (id : List Nat) (fr : Framer) : Tag :=
  { t with frames := mapStore t.frames id ((mapFind t.frames id).getD [] ++ [fr]) }

/-- The loop body of parseFramesCoordsWithID: decode each coordinate in scan
order; a decoder failure is a panic that aborts immediately, leaving the tag
as it was before the failing occurrence. -/
def readFramesLoop (D : Decoders) (pf : ParseFuncKind) (id : List Nat) :
    List frameCoordinates → Tag → Tag × Option String
  | [], t => (t, none)
  | fc :: rest, t =>
    match readFrame D pf t.file fc with
    | .error e => (t, some e)
    | .ok (fr, f1) => readFramesLoop D pf id rest (AddFrame { t with file := f1 } id fr)

/-- parseFramesCoordsWithID: look the identifier up in the coordinate index
(absent means nothing to do), select a decoder, decode every coordinate when
a decoder exists, then delete the identifier from the index.  A panic in the
loop propagates before the deletion. -/
def parseFramesCoordsWithID (D : Decoders) (t : Tag) (id : List Nat) :
    Tag × Option String :=
  match mapFind t.framesCoords id with
  | none => (t, none)
  | some fcs =>
    match findParseFunc t id with
    | some pf =>
      match readFramesLoop D pf id fcs t with
      | (t1, none) => ({ t1 with framesCoords := mapErase t1.framesCoords id }, none)
      | (t1, some e) => (t1, some e)
    | none => ({ t with framesCoords := mapErase t.framesCoords id }, none)

/-- Resolve a list of identifiers in order, stopping at the first panic. -/
def parseAllFramesCoordsAux (D : Decoders) :
    List (List Nat) → Tag → Tag × Option String
  | [], t => (t, none)
  | id :: rest, t =>
    match parseFramesCoordsWithID D t id with
    | (t1, none) => parseAllFramesCoordsAux D rest t1
    | (t1, some e) => (t1, some e)

/-- parseAllFramesCoords: resolve every identifier pending in the index. -/
def parseAllFramesCoords (D : Decoders) (t : Tag) : Tag × Option String :=
  parseAllFramesCoordsAux D (t.framesCoords.map (·.1)) t

/-- The decoded values stored for an identifier. -/
def framesOf (t : Tag) (id : List Nat) : List Framer :=
  (mapFind t.frames id).getD []

/-- The pending coordinates recorded for an identifier. -/
def coordsOf (t : Tag) (id : List Nat) : List frameCoordinates :=
  (mapFind t.framesCoords id).getD []

/-- Every payload range recorded in the index ends at or before pos. -/
def coordsBound (m : List (List Nat × List frameCoordinates)) (pos : Int) : Prop :=
  ∀ p ∈ m, ∀ fc ∈ p.2, fc.Pos + fc.Len ≤ pos

/-- Every byte offset read so far lies strictly before pos. -/
def readsBound (rs : List Nat) (pos : Int) : Prop :=
  ∀ o ∈ rs, (o : Int) < pos

/-- No read offset lies inside any recorded payload range. -/
def disjointRC (rs : List Nat) (m : List (List Nat × List frameCoordinates)) : Prop :=
  ∀ o ∈ rs, ∀ p ∈ m, ∀ fc ∈ p.2, (o : Int) < fc.Pos ∨ fc.Pos + fc.Len ≤ o

/-- Invariant carried through the structural scan: every recorded payload
range ends at or before the cursor, and every byte read so far lies strictly
before the cursor. -/
def scanInv (t : Tag) (pos : Int) : Prop :=
  coordsBound t.framesCoords pos ∧ readsBound t.file.reads pos

/-- No byte offset that has been read lies inside any recorded payload
range. -/
def noPayloadReads (t : Tag) : Prop :=
  disjointRC t.file.reads t.framesCoords

/-- An identifier pending in the coordinate index is never simultaneously
present in the decoded-frame store. -/
def storeDisjoint (t : Tag) : Prop :=
  ∀ p ∈ t.framesCoords, mapFind t.frames p.1 = none

/-- Sample tag: ID3 v2.3 header declaring a 32-byte frame region holding two
TIT2 text frames of payload length 6 each. -/
def exData : List Nat :=
  [73, 68, 51, 3, 0, 0, 0, 0, 0, 32] ++
  [84, 73, 84, 50, 0, 0, 0, 6, 0, 0] ++ [1, 72, 101, 108, 108, 111] ++
  [84, 73, 84, 50, 0, 0, 0, 6, 0, 0] ++ [1, 87, 111, 114, 108, 100]

def exFile : File := { data := exData, pos := 0, reads := [] }

/-- Sample tag whose frame region (declared 30 bytes) is cut off 3 bytes
into the second frame header. -/
def exDataTrunc : List Nat :=
  [73, 68, 51, 3, 0, 0, 0, 0, 0, 30] ++
  [84, 73, 84, 50, 0, 0, 0, 5, 0, 0] ++ [1, 72, 101, 108, 108] ++ [9, 9, 9]

def exFileTrunc : File := { data := exDataTrunc, pos := 0, reads := [] }

/-- Sample header with major version 5 and an empty frame region. -/
def exFileV5 : File :=
  { data := [73, 68, 51, 5, 0, 0, 0, 0, 0, 0], pos := 0, reads := [] }

/-- Sample header with major version 2 and an empty frame region. -/
def exFileV2 : File :=
  { data := [73, 68, 51, 2, 0, 0, 0, 0, 0, 0], pos := 0, reads := [] }

/-- Sample source with no ID3 magic. -/
def exFileNoMagic : File := { data := [0, 1, 2], pos := 0, reads := [] }

/-- Sample tag holding a single frame with the unknown identifier XXXX. -/
def exDataUnknown : List Nat :=
  [73, 68, 51, 3, 0, 0, 0, 0, 0, 16] ++
  [88, 88, 88, 88, 0, 0, 0, 6, 0, 0] ++ [7, 7, 7, 7, 7, 7]

def exFileUnknown : File := { data := exDataUnknown, pos := 0, reads := [] }

/-- A decoder interpretation that always succeeds, returning the visible
bytes and consuming all of them. -/
def exD : Decoders := fun _ bs => .ok (Framer.frame bs, bs.length)

/-- A decoder interpretation that always fails. -/
def exDFail : Decoders := fun _ _ => .error "bad frame"

def exTag : Tag := (parseTag (some exFile)).1.getD (newTag exFile 0 4)

def exTagUnknown : Tag :=
  (parseTag (some exFileUnknown)).1.getD (newTag exFileUnknown 0 4)

/-- The TIT2 identifier. -/
def exTIT2 : List Nat := [84, 73, 84, 50]

/-- A tag state mid-scan whose source has only 5 bytes, so any frame-header
read is truncated. -/
def exTagMid : Tag := newTag { data := [0, 1, 2, 3, 4], pos := 0, reads := [] } 20 3

/-- The tag state entering the structural scan of the XXXX sample: header
already consumed, cursor about to start at offset 10. -/
def exScanStart : Tag :=
  newTag { data := exDataUnknown, pos := 10, reads := [0, 1, 2, 3, 4, 5, 6, 7, 8, 9] } 26 3

/-- The tag state after the structural scan of the XXXX sample. -/
def exScanResult : Tag :=
  { framesCoords := [([88, 88, 88, 88], [{ Len := 6, Pos := 20 }])]
    frames := []
    file := { data := exDataUnknown, pos := 20,
              reads := [0, 1, 2, 3, 4, 5, 6, 7, 8, 9, 10, 11, 12, 13, 14, 15, 16, 17, 18, 19] }
    originalSize := 26
    version := 3
    ids := V23IDs }

/-- The unknown identifier XXXX. -/
def exXXXX : List Nat := [88, 88, 88, 88]

theorem mapFind_store_self {α : Type} (m : List (List Nat × α)) (id : List Nat) (v : α) :
    mapFind (mapStore m id v) id = some v := by
  induction m with
  | nil => simp [mapFind, mapStore]
  | cons p rest ih =>
    by_cases h : p.1 = id
    · simp [mapStore, mapFind, h]
    · simp [mapStore, mapFind, h, ih]

theorem mapFind_store_ne {α : Type} (m : List (List Nat × α)) {id id2 : List Nat}
    (v : α) (h : id2 ≠ id) : mapFind (mapStore m id v) id2 = mapFind m id2 := by
  have h' : id ≠ id2 := Ne.symm h
  induction m with
  | nil => simp [mapFind, mapStore, h']
  | cons p rest ih =>
    by_cases hp : p.1 = id
    · simp [mapStore, mapFind, hp, h']
    · simp only [mapStore, mapFind, if_neg hp]
      by_cases hp2 : p.1 = id2
      · simp [mapFind, hp2]
      · simp [mapFind, hp2, ih]

theorem mapFind_erase_self {α : Type} (m : List (List Nat × α)) (id : List Nat) :
    mapFind (mapErase m id) id = none := by
  induction m with
  | nil => simp [mapFind, mapErase]
  | cons p rest ih =>
    by_cases h : p.1 = id
    · simp [mapErase, h, ih]
    · simp [mapErase, mapFind, h, ih]

theorem mapFind_erase_ne {α : Type} (m : List (List Nat × α)) {id id2 : List Nat}
    (h : id2 ≠ id) : mapFind (mapErase m id) id2 = mapFind m id2 := by
  induction m with
  | nil => simp [mapErase]
  | cons p rest ih =>
    by_cases hp : p.1 = id
    · have h' : id ≠ id2 := Ne.symm h
      simp [mapErase, mapFind, hp, h', ih]
    · simp only [mapErase, if_neg hp]
      by_cases hp2 : p.1 = id2
      · simp [mapFind, hp2]
      · simp [mapFind, hp2, ih]

theorem mem_mapStore {α : Type} {m : List (List Nat × α)} {id : List Nat}
    {v : α} {p : List Nat × α} (h : p ∈ mapStore m id v) : p ∈ m ∨ p = (id, v) := by
  induction m with
  | nil => simp [mapStore] at h; simp [h]
  | cons q rest ih =>
    by_cases hq : q.1 = id
    · rw [mapStore, if_pos hq] at h
      rcases List.mem_cons.mp h with h1 | h2
      · exact Or.inr h1
      · exact Or.inl (List.mem_cons_of_mem _ h2)
    · rw [mapStore, if_neg hq] at h
      rcases List.mem_cons.mp h with h1 | h2
      · exact Or.inl (h1 ▸ List.mem_cons_self _ _)
      · rcases ih h2 with h3 | h3
        · exact Or.inl (List.mem_cons_of_mem _ h3)
        · exact Or.inr h3

theorem mapFind_mem {α : Type} {m : List (List Nat × α)} {id : List Nat}
    {v : α} (h : mapFind m id = some v) : (id, v) ∈ m := by
  induction m with
  | nil => simp [mapFind] at h
  | cons q rest ih =>
    by_cases hq : q.1 = id
    · rw [mapFind, if_pos hq] at h
      have : q = (id, v) := by
        cases q
        simp only [Option.some.injEq] at h
        simp_all
      exact this ▸ List.mem_cons_self _ _
    · rw [mapFind, if_neg hq] at h
      exact List.mem_cons_of_mem _ (ih h)

theorem mem_mapErase {α : Type} {m : List (List Nat × α)} {id : List Nat}
    {p : List Nat × α} (h : p ∈ mapErase m id) : p ∈ m ∧ p.1 ≠ id := by
  induction m with
  | nil => simp [mapErase] at h
  | cons q rest ih =>
    by_cases hq : q.1 = id
    · rw [mapErase, if_pos hq] at h
      have := ih h
      exact ⟨List.mem_cons_of_mem _ this.1, this.2⟩
    · rw [mapErase, if_neg hq] at h
      rcases List.mem_cons.mp h with h1 | h2
      · subst h1; exact ⟨List.mem_cons_self _ _, hq⟩
      · have := ih h2
        exact ⟨List.mem_cons_of_mem _ this.1, this.2⟩

theorem foldl_size_nonneg (l : List Nat) :
    ∀ s : Int, 0 ≤ s → 0 ≤ l.foldl (fun size b => size * 128 + ((b % 128 : Nat) : Int)) s := by
  induction l with
  | nil => intro s hs; simpa using hs
  | cons b rest ih =>
    intro s hs
    apply ih
    have h1 : (0 : Int) ≤ s * 128 := by positivity
    have h2 : (0 : Int) ≤ ((b % 128 : Nat) : Int) := Int.natCast_nonneg _
    show 0 ≤ s * 128 + ((b % 128 : Nat) : Int)
    omega

theorem ParseSize_nonneg (data : List Nat) : 0 ≤ ParseSize data :=
  foldl_size_nonneg data 0 le_rfl

/-- C5: for every byte source whose leading 3 bytes do not match the ID3
magic, parseTag succeeds (no error) and returns a valid empty tag: no
indexed coordinates, no decoded frames, original size 0 and version 4. -/
theorem C5_absent_header_empty_tag (f : File) (hpos : f.pos = 0)
    (hmagic : f.data.take 3 ≠ id3Magic) :
    (parseTag (some f)).2 = none ∧
    ((parseTag (some f)).1.map
      (fun t => (t.framesCoords, t.frames, t.originalSize, t.version))) =
      some ([], [], 0, 4) := by
  have h3 : ((f.data.drop f.pos).take tagHeaderSize).take 3 = f.data.take 3 := by
    rw [hpos]
    simp [tagHeaderSize, List.take_take]
  simp [parseTag, parseHeader, File.readUpTo, h3, hmagic, newTag]

/-- C5 witness: the concrete source 0,1,2 has no magic and parses to the
empty tag. -/
theorem C5_absent_header_empty_tag_witness :
    (parseTag (some exFileNoMagic)).2 = none ∧
    ((parseTag (some exFileNoMagic)).1.map
      (fun t => (t.framesCoords, t.frames, t.originalSize, t.version))) =
      some ([], [], 0, 4) :=
  C5_absent_header_empty_tag exFileNoMagic (by decide) (by decide)

/-- C6: resolving an identifier is idempotent: a completed (panic-free)
first call removes the identifier from the coordinate index, and the
repeated call returns the tag completely unchanged (same decoded store and
same byte source, hence no further reads) with no error. -/
theorem C6_resolve_idempotent (D : Decoders) (t : Tag) (id : List Nat)
    (h : (parseFramesCoordsWithID D t id).2 = none) :
    mapFind ((parseFramesCoordsWithID D t id).1).framesCoords id = none ∧
    parseFramesCoordsWithID D ((parseFramesCoordsWithID D t id).1) id =
      ((parseFramesCoordsWithID D t id).1, none) := by
  have hkey : mapFind ((parseFramesCoordsWithID D t id).1).framesCoords id = none := by
    cases hfind : mapFind t.framesCoords id with
    | none => simp [parseFramesCoordsWithID, hfind]
    | some fcs =>
      cases hpf : findParseFunc t id with
      | none => simp [parseFramesCoordsWithID, hfind, hpf, mapFind_erase_self]
      | some pf =>
        cases hloop : readFramesLoop D pf id fcs t with
        | mk t1 e =>
          cases e with
          | none => simp [parseFramesCoordsWithID, hfind, hpf, hloop, mapFind_erase_self]
          | some msg => simp [parseFramesCoordsWithID, hfind, hpf, hloop] at h
  refine ⟨hkey, ?_⟩
  rw [parseFramesCoordsWithID, hkey]

/-- C6 witness: resolving TIT2 on the sample tag succeeds, removes TIT2
from the index and a second resolve is a no-op. -/
theorem C6_resolve_idempotent_witness :
    (parseFramesCoordsWithID exD exTag exTIT2).2 = none ∧
    (mapFind ((parseFramesCoordsWithID exD exTag exTIT2).1).framesCoords exTIT2 = none ∧
     parseFramesCoordsWithID exD ((parseFramesCoordsWithID exD exTag exTIT2).1) exTIT2 =
       ((parseFramesCoordsWithID exD exTag exTIT2).1, none)) :=
  ⟨by decide, C6_resolve_idempotent exD exTag exTIT2 (by decide)⟩

/-- C3 counterexample: a header with major version 5 — neither of the two
supported versions — is accepted by parseTag without any error, so parseTag
does not validate that the version is one of 3 and 4. -/
theorem C3_counterexample :
    (parseTag (some exFileV5)).2 = none ∧
    ((parseTag (some exFileV5)).1.map (fun t => t.version)).getD 0 = 5 := by
  decide

/-- C3 (amended): parseTag rejects exactly the major versions below 3 with
the UnsupportedVersion error, aborting before any frame scanning; every
version at least 3 — including versions above 4 — is accepted and proceeds
to the structural scan. -/
theorem C3_version_check (f f1 : File) (hd : tagHeader)
    (hh : parseHeader f = (.ok (some hd), f1)) :
    (hd.Version < 3 → parseTag (some f) = (none, some "Unsupported version of ID3 tag")) ∧
    (3 ≤ hd.Version →
      parseTag (some f) =
        (some (findAllFrames (newTag f1 ((tagHeaderSize : Nat) + hd.FramesSize) hd.Version)).1,
         (findAllFrames (newTag f1 ((tagHeaderSize : Nat) + hd.FramesSize) hd.Version)).2)) := by
  constructor
  · intro hv
    simp [parseTag, hh, hv]
  · intro hv
    have hv' : ¬ hd.Version < 3 := by omega
    simp [parseTag, hh, hv']

/-- C3 witness: the version-2 header is rejected with UnsupportedVersion. -/
theorem C3_version_check_witness :
    parseTag (some exFileV2) = (none, some "Unsupported version of ID3 tag") :=
  (C3_version_check exFileV2
    { data := [73, 68, 51, 2, 0, 0, 0, 0, 0, 0], pos := 10,
      reads := [0, 1, 2, 3, 4, 5, 6, 7, 8, 9] }
    { Version := 2, FramesSize := 0 } (by rfl)).1 (by decide)

/-- C2 counterexample: on a source whose second frame header is truncated,
parseTag does fail with the truncated-frame-header error, but the
partially built tag — still holding the coordinate entry collected for the
first frame — is returned to the caller alongside the error, so the
collected coordinates are not discarded. -/
theorem C2_counterexample :
    (parseTag (some exFileTrunc)).2 = some "Size of frame header is less than expected" ∧
    ((parseTag (some exFileTrunc)).1.map (fun t => coordsOf t exTIT2)).getD [] =
      [{ Len := 5, Pos := 20 }] := by
  decide

/-- C2 (amended): when fewer than 10 bytes are available where a frame
header is expected, the scan aborts immediately with the
truncated-frame-header error and records nothing further (the coordinate
index is returned exactly as it was); the error propagates through parseTag
to the caller, but together with the partially built tag rather than with
the collected coordinates discarded. -/
theorem C2_truncated_frame_header :
    (∀ (fuel : Nat) (t : Tag) (pos : Int),
      pos < t.originalSize → 0 ≤ pos →
      t.file.data.length < pos.toNat + frameHeaderSize →
      findAllFramesLoop (fuel + 1) t pos =
        some ({ t with file := { t.file with
                  pos := pos.toNat + ((t.file.data.drop pos.toNat).take frameHeaderSize).length
                  reads := t.file.reads ++
                    (List.range ((t.file.data.drop pos.toNat).take frameHeaderSize).length).map
                      (pos.toNat + ·) } },
              some "Size of frame header is less than expected")) ∧
    (∀ (f f1 : File) (hd : tagHeader),
      parseHeader f = (.ok (some hd), f1) → 3 ≤ hd.Version →
      parseTag (some f) =
        (some (findAllFrames (newTag f1 ((tagHeaderSize : Nat) + hd.FramesSize) hd.Version)).1,
         (findAllFrames (newTag f1 ((tagHeaderSize : Nat) + hd.FramesSize) hd.Version)).2)) := by
  constructor
  · intro fuel t pos h1 h2 h3
    have hseek : ¬ pos < 0 := not_lt.mpr h2
    have hcond : t.file.data.length - pos.toNat < frameHeaderSize := by
      simp only [frameHeaderSize] at *
      omega
    simp [findAllFramesLoop, if_pos h1, File.seek, hseek, parseFrameHeader, File.readUpTo,
          hcond]
  · intro f f1 hd hh hv
    have hv' : ¬ hd.Version < 3 := by omega
    simp [parseTag, hh, hv']

/-- C2 witness: a truncated read aborts the scan at once on the concrete
mid-scan tag, and the abort propagates through parseTag on the concrete
truncated source. -/
theorem C2_truncated_frame_header_witness :
    findAllFramesLoop 3 exTagMid 10 =
      some ({ exTagMid with file := { exTagMid.file with
                pos := (10 : Int).toNat +
                  ((exTagMid.file.data.drop (10 : Int).toNat).take frameHeaderSize).length
                reads := exTagMid.file.reads ++
                  (List.range ((exTagMid.file.data.drop (10 : Int).toNat).take
                    frameHeaderSize).length).map ((10 : Int).toNat + ·) } },
            some "Size of frame header is less than expected") ∧
    parseTag (some exFileTrunc) =
      (some (findAllFrames (newTag
        { data := exDataTrunc, pos := 10, reads := [0, 1, 2, 3, 4, 5, 6, 7, 8, 9] }
        ((tagHeaderSize : Nat) + 30) 3)).1,
       (findAllFrames (newTag
        { data := exDataTrunc, pos := 10, reads := [0, 1, 2, 3, 4, 5, 6, 7, 8, 9] }
        ((tagHeaderSize : Nat) + 30) 3)).2) :=
  ⟨C2_truncated_frame_header.1 2 exTagMid 10 (by decide) (by decide) (by decide),
   C2_truncated_frame_header.2 exFileTrunc
     { data := exDataTrunc, pos := 10, reads := [0, 1, 2, 3, 4, 5, 6, 7, 8, 9] }
     { Version := 3, FramesSize := 30 } (by rfl) (by decide)⟩

/-- C7: decoder selection depends only on the identifier and the
version-resolved ID table; an identifier starting with the text sentinel
selects the text decoder; otherwise an identifier equal to the
version-resolved picture, comment or unsynchronized-lyrics identifier
selects that kind's decoder (stated both along the dispatch chain and
unconditionally for every tag built by newTag, whose table is one of the
two version tables); an identifier matching none of these selects no
decoder, and resolving such an identifier executes nothing: the tag is
returned with the decoded store, byte source and everything else
unchanged — only the identifier's coordinates are removed from the
index — and no error. -/
theorem C7_decoder_dispatch :
    (∀ (t : Tag) (rest : List Nat), findParseFunc t (84 :: rest) = some .text) ∧
    (∀ (t t2 : Tag) (id : List Nat), t.ids = t2.ids →
      findParseFunc t id = findParseFunc t2 id) ∧
    (∀ (t : Tag) (id : List Nat), id.head? ≠ some 84 →
      id = t.ID "Attached picture" → findParseFunc t id = some .picture) ∧
    (∀ (t : Tag) (id : List Nat), id.head? ≠ some 84 →
      id ≠ t.ID "Attached picture" → id = t.ID "Comments" →
      findParseFunc t id = some .comment) ∧
    (∀ (t : Tag) (id : List Nat), id.head? ≠ some 84 →
      id ≠ t.ID "Attached picture" → id ≠ t.ID "Comments" →
      id = t.ID "Unsynchronised lyrics/text transcription" →
      findParseFunc t id = some .lyrics) ∧
    (∀ (f : File) (sz : Int) (v : Nat),
      findParseFunc (newTag f sz v) [65, 80, 73, 67] = some .picture ∧
      findParseFunc (newTag f sz v) [67, 79, 77, 77] = some .comment ∧
      findParseFunc (newTag f sz v) [85, 83, 76, 84] = some .lyrics) ∧
    (∀ (t : Tag) (id : List Nat), id.head? ≠ some 84 →
      id ≠ t.ID "Attached picture" → id ≠ t.ID "Comments" →
      id ≠ t.ID "Unsynchronised lyrics/text transcription" →
      findParseFunc t id = none) ∧
    (∀ (D : Decoders) (t : Tag) (id : List Nat) (fcs : List frameCoordinates),
      mapFind t.framesCoords id = some fcs → findParseFunc t id = none →
      parseFramesCoordsWithID D t id =
        ({ t with framesCoords := mapErase t.framesCoords id }, none)) := by
  refine ⟨?_, ?_, ?_, ?_, ?_, ?_, ?_, ?_⟩
  · intro t rest
    simp [findParseFunc]
  · intro t t2 id h
    simp [findParseFunc, Tag.ID, h]
  · intro t id h1 h2
    subst h2
    simp [findParseFunc, h1]
  · intro t id h1 h2 h3
    subst h3
    simp [findParseFunc, h1, h2]
  · intro t id h1 h2 h3 h4
    subst h4
    simp [findParseFunc, h1, h2, h3]
  · intro f sz v
    by_cases hv : v = 3
    · refine ⟨?_, ?_, ?_⟩ <;>
        simp [findParseFunc, newTag, Tag.ID, hv, V23IDs]
    · refine ⟨?_, ?_, ?_⟩ <;>
        simp [findParseFunc, newTag, Tag.ID, hv, V24IDs]
  · intro t id h1 h2 h3 h4
    simp [findParseFunc, h1, h2, h3, h4]
  · intro D t id fcs hfind hpf
    simp [parseFramesCoordsWithID, hfind, hpf]

/-- C7 witness: on the sample tags, TIT2 is text-dispatched, dispatch is
table-pure, the APIC, COMM and USLT identifiers select the picture, comment
and lyrics decoders (on the sample v3 tag and on a freshly built v4 tag),
XXXX selects no decoder, and resolving XXXX only deletes its coordinates. -/
theorem C7_decoder_dispatch_witness :
    findParseFunc exTagUnknown (84 :: [73, 84, 50]) = some .text ∧
    findParseFunc exTagUnknown exXXXX = findParseFunc exTagUnknown exXXXX ∧
    findParseFunc exTag [65, 80, 73, 67] = some .picture ∧
    findParseFunc exTag [67, 79, 77, 77] = some .comment ∧
    findParseFunc exTag [85, 83, 76, 84] = some .lyrics ∧
    (findParseFunc (newTag exFileNoMagic 0 4) [65, 80, 73, 67] = some .picture ∧
     findParseFunc (newTag exFileNoMagic 0 4) [67, 79, 77, 77] = some .comment ∧
     findParseFunc (newTag exFileNoMagic 0 4) [85, 83, 76, 84] = some .lyrics) ∧
    findParseFunc exTagUnknown exXXXX = none ∧
    parseFramesCoordsWithID exD exTagUnknown exXXXX =
      ({ exTagUnknown with framesCoords := mapErase exTagUnknown.framesCoords exXXXX },
       none) :=
  ⟨C7_decoder_dispatch.1 exTagUnknown [73, 84, 50],
   C7_decoder_dispatch.2.1 exTagUnknown exTagUnknown exXXXX rfl,
   C7_decoder_dispatch.2.2.1 exTag [65, 80, 73, 67] (by decide) (by decide),
   C7_decoder_dispatch.2.2.2.1 exTag [67, 79, 77, 77] (by decide) (by decide)
     (by decide),
   C7_decoder_dispatch.2.2.2.2.1 exTag [85, 83, 76, 84] (by decide) (by decide)
     (by decide) (by decide),
   C7_decoder_dispatch.2.2.2.2.2.1 exFileNoMagic 0 4,
   C7_decoder_dispatch.2.2.2.2.2.2.1 exTagUnknown exXXXX (by decide) (by decide)
     (by decide) (by decide),
   C7_decoder_dispatch.2.2.2.2.2.2.2 exD exTagUnknown exXXXX [{ Len := 6, Pos := 20 }]
     (by decide) (by decide)⟩

theorem readFrame_error (D : Decoders) (pf : ParseFuncKind) (f : File)
    (fc : frameCoordinates) (e : String) (hpos : 0 ≤ fc.Pos)
    (hD : D pf (frameSlice f.data fc) = .error e) :
    readFrame D pf f fc = .error e := by
  have hseek : ¬ fc.Pos < 0 := not_lt.mpr hpos
  rw [frameSlice] at hD
  simp [readFrame, File.seek, hseek, hD]

theorem readFrame_ok (D : Decoders) (pf : ParseFuncKind) (f : File)
    (fc : frameCoordinates) (fr : Framer) (n : Nat) (hpos : 0 ≤ fc.Pos)
    (hD : D pf (frameSlice f.data fc) = .ok (fr, n)) :
    readFrame D pf f fc = .ok (fr,
      { data := f.data
        pos := fc.Pos.toNat + min n (frameSlice f.data fc).length
        reads := f.reads ++
          (List.range (min n (frameSlice f.data fc).length)).map (fc.Pos.toNat + ·) }) := by
  have hseek : ¬ fc.Pos < 0 := not_lt.mpr hpos
  rw [frameSlice] at hD
  simp [readFrame, File.seek, hseek, hD, frameSlice]

/-- C8: the decoder runs against a reader capped at the recorded length: the
bytes it can see are at most fc.Len, and every byte offset it reads lies
inside the recorded payload range; a decoder error makes readFrame fail (the
panic), which aborts the whole resolve operation immediately: the tag — in
particular the decoded store — is returned exactly as it was before the
failing occurrence, so no value for it is ever stored. -/
theorem C8_bounded_reader_decode_abort :
    (∀ (D : Decoders) (pf : ParseFuncKind) (f : File) (fc : frameCoordinates)
       (fr : Framer) (f1 : File),
      0 ≤ fc.Pos → 0 ≤ fc.Len → readFrame D pf f fc = .ok (fr, f1) →
      (frameSlice f.data fc).length ≤ fc.Len.toNat ∧
      ∀ o ∈ f1.reads, o ∈ f.reads ∨ (fc.Pos ≤ (o : Int) ∧ (o : Int) < fc.Pos + fc.Len)) ∧
    (∀ (D : Decoders) (pf : ParseFuncKind) (f : File) (fc : frameCoordinates) (e : String),
      0 ≤ fc.Pos → D pf (frameSlice f.data fc) = .error e →
      readFrame D pf f fc = .error e) ∧
    (∀ (D : Decoders) (pf : ParseFuncKind) (id : List Nat) (t : Tag)
       (fc : frameCoordinates) (rest : List frameCoordinates) (e : String),
      0 ≤ fc.Pos → D pf (frameSlice t.file.data fc) = .error e →
      readFramesLoop D pf id (fc :: rest) t = (t, some e)) ∧
    (∀ (D : Decoders) (t : Tag) (id : List Nat) (pf : ParseFuncKind)
       (fc : frameCoordinates) (rest : List frameCoordinates) (e : String),
      mapFind t.framesCoords id = some (fc :: rest) → findParseFunc t id = some pf →
      0 ≤ fc.Pos → D pf (frameSlice t.file.data fc) = .error e →
      parseFramesCoordsWithID D t id = (t, some e)) := by
  refine ⟨?_, ?_, ?_, ?_⟩
  · intro D pf f fc fr f1 hpos hlen hr
    rcases hD : D pf (frameSlice f.data fc) with e | ⟨fr0, n⟩
    · rw [readFrame_error D pf f fc e hpos hD] at hr
      cases hr
    · rw [readFrame_ok D pf f fc fr0 n hpos hD] at hr
      simp only [Except.ok.injEq, Prod.mk.injEq] at hr
      obtain ⟨hfr, hf1⟩ := hr
      subst hf1
      have hsl : (frameSlice f.data fc).length ≤ fc.Len.toNat := by
        simp [frameSlice, List.length_take]
      refine ⟨hsl, ?_⟩
      intro o ho
      simp only [List.mem_append, List.mem_map, List.mem_range] at ho
      rcases ho with ho | ⟨i, hi, rfl⟩
      · exact Or.inl ho
      · right
        have hiv : i < fc.Len.toNat :=
          lt_of_lt_of_le hi (le_trans (min_le_right _ _) hsl)
        have e1 : (fc.Pos.toNat : Int) = fc.Pos := Int.toNat_of_nonneg hpos
        have e2 : (fc.Len.toNat : Int) = fc.Len := Int.toNat_of_nonneg hlen
        constructor <;> push_cast <;> omega
  · intro D pf f fc e hpos hD
    exact readFrame_error D pf f fc e hpos hD
  · intro D pf id t fc rest e hpos hD
    simp [readFramesLoop, readFrame_error D pf t.file fc e hpos hD]
  · intro D t id pf fc rest e hfind hpf hpos hD
    simp [parseFramesCoordsWithID, hfind, hpf, readFramesLoop,
          readFrame_error D pf t.file fc e hpos hD]

/-- C8 witness: a concrete successful bounded read, a concrete decoder
failure propagating through readFrame, and the failing resolve of TIT2 on
the sample tag leaving the tag untouched. -/
theorem C8_bounded_reader_decode_abort_witness :
    ((frameSlice (File.mk [9, 8, 7] 0 []).data { Len := 2, Pos := 1 }).length ≤
        (2 : Int).toNat ∧
      ∀ o ∈ (File.mk [9, 8, 7] 3 [1, 2]).reads,
        o ∈ (File.mk [9, 8, 7] 0 []).reads ∨
        ((1 : Int) ≤ (o : Int) ∧ (o : Int) < (1 : Int) + (2 : Int))) ∧
    readFrame exDFail .text (File.mk [9, 8, 7] 0 []) { Len := 2, Pos := 1 } =
      .error "bad frame" ∧
    readFramesLoop exDFail .text exTIT2
      [{ Len := 6, Pos := 20 }, { Len := 6, Pos := 36 }] exTag =
      (exTag, some "bad frame") ∧
    parseFramesCoordsWithID exDFail exTag exTIT2 = (exTag, some "bad frame") := by
  refine ⟨?_, ?_, ?_, ?_⟩
  · have h := C8_bounded_reader_decode_abort.1 exD .text (File.mk [9, 8, 7] 0 [])
      { Len := 2, Pos := 1 } (Framer.frame [8, 7])
      (File.mk [9, 8, 7] 3 [1, 2]) (by decide) (by decide) (by rfl)
    exact ⟨h.1, fun o ho => h.2 o ho⟩
  · exact C8_bounded_reader_decode_abort.2.1 exDFail .text (File.mk [9, 8, 7] 0 [])
      { Len := 2, Pos := 1 } "bad frame" (by decide) (by rfl)
  · exact C8_bounded_reader_decode_abort.2.2.1 exDFail .text exTIT2 exTag
      { Len := 6, Pos := 20 } [{ Len := 6, Pos := 36 }] "bad frame" (by decide) (by rfl)
  · exact C8_bounded_reader_decode_abort.2.2.2 exDFail exTag exTIT2 .text
      { Len := 6, Pos := 20 } [{ Len := 6, Pos := 36 }] "bad frame" (by decide)
      (by decide) (by decide) (by rfl)

theorem framesOf_AddFrame_self (t : Tag) (id : List Nat) (fr : Framer) :
    framesOf (AddFrame t id fr) id = framesOf t id ++ [fr] := by
  simp [framesOf, AddFrame, mapFind_store_self]

theorem readFramesLoop_ok (D : Decoders) (pf : ParseFuncKind) (id : List Nat) :
    ∀ (fcs : List frameCoordinates) (t : Tag),
      (∀ fc ∈ fcs, 0 ≤ fc.Pos) →
      (∀ fc ∈ fcs, decodeOk D pf t.file.data fc ≠ none) →
      (readFramesLoop D pf id fcs t).2 = none ∧
      (readFramesLoop D pf id fcs t).1.file.data = t.file.data ∧
      (readFramesLoop D pf id fcs t).1.framesCoords = t.framesCoords ∧
      (framesOf (readFramesLoop D pf id fcs t).1 id).map some =
        (framesOf t id).map some ++ fcs.map (decodeOk D pf t.file.data) ∧
      (∀ id2, id2 ≠ id →
        mapFind (readFramesLoop D pf id fcs t).1.frames id2 = mapFind t.frames id2) := by
  intro fcs
  induction fcs with
  | nil =>
    intro t h1 h2
    simp [readFramesLoop]
  | cons fc rest ih =>
    intro t h1 h2
    have hpos : 0 ≤ fc.Pos := h1 fc (List.mem_cons_self _ _)
    have hdec := h2 fc (List.mem_cons_self _ _)
    rcases hD : D pf (frameSlice t.file.data fc) with e | ⟨fr, n⟩
    · exact absurd (by simp [decodeOk, hD]) hdec
    · have hrf := readFrame_ok D pf t.file fc fr n hpos hD
      have hfc : decodeOk D pf t.file.data fc = some fr := by simp [decodeOk, hD]
      rw [readFramesLoop, hrf]
      set t1 := AddFrame { t with file :=
        { data := t.file.data
          pos := fc.Pos.toNat + min n (frameSlice t.file.data fc).length
          reads := t.file.reads ++
            (List.range (min n (frameSlice t.file.data fc).length)).map
              (fc.Pos.toNat + ·) } } id fr with ht1
      have hdata1 : t1.file.data = t.file.data := by rw [ht1]; rfl
      have h1r : ∀ fc2 ∈ rest, 0 ≤ fc2.Pos :=
        fun fc2 hm => h1 fc2 (List.mem_cons_of_mem _ hm)
      have h2r : ∀ fc2 ∈ rest, decodeOk D pf t1.file.data fc2 ≠ none := by
        rw [hdata1]
        exact fun fc2 hm => h2 fc2 (List.mem_cons_of_mem _ hm)
      have hrec := ih t1 h1r h2r
      obtain ⟨he, hd, hc, hf, ho⟩ := hrec
      refine ⟨he, by rw [hd, hdata1], by rw [hc]; rw [ht1]; rfl, ?_, ?_⟩
      · rw [hf, hdata1]
        have hadd : framesOf t1 id = framesOf t id ++ [fr] := by
          rw [ht1]
          exact framesOf_AddFrame_self _ id fr
        rw [hadd]
        simp [hfc]
      · intro id2 hne
        rw [ho id2 hne, ht1]
        simp only [AddFrame]
        exact mapFind_store_ne _ _ hne

/-- C4: duplicate identifiers are preserved: the scan's index update appends
the new coordinate entry at the end of the identifier's sequence (never
collapsing occurrences), and resolving an identifier whose coordinates all
decode successfully stores all decoded values for it, appended in original
scan order, none overwritten. -/
theorem C4_duplicate_identifiers_preserved :
    (∀ (m : List (List Nat × List frameCoordinates)) (id : List Nat)
       (fc : frameCoordinates),
      (mapFind (mapStore m id ((mapFind m id).getD [] ++ [fc])) id).getD [] =
        (mapFind m id).getD [] ++ [fc]) ∧
    (∀ (D : Decoders) (t : Tag) (id : List Nat) (pf : ParseFuncKind)
       (fcs : List frameCoordinates),
      mapFind t.framesCoords id = some fcs → findParseFunc t id = some pf →
      (∀ fc ∈ fcs, 0 ≤ fc.Pos) → (∀ fc ∈ fcs, decodeOk D pf t.file.data fc ≠ none) →
      (parseFramesCoordsWithID D t id).2 = none ∧
      (framesOf (parseFramesCoordsWithID D t id).1 id).map some =
        (framesOf t id).map some ++ fcs.map (decodeOk D pf t.file.data)) := by
  constructor
  · intro m id fc
    simp [mapFind_store_self]
  · intro D t id pf fcs hfind hpf h1 h2
    obtain ⟨he, hdata, hcoords, hframes, hother⟩ := readFramesLoop_ok D pf id fcs t h1 h2
    cases hloop : readFramesLoop D pf id fcs t with
    | mk t1 e1 =>
      rw [hloop] at he hdata hcoords hframes hother
      simp only at he
      subst he
      constructor
      · simp [parseFramesCoordsWithID, hfind, hpf, hloop]
      · have hres : (parseFramesCoordsWithID D t id).1 =
            { t1 with framesCoords := mapErase t1.framesCoords id } := by
          simp [parseFramesCoordsWithID, hfind, hpf, hloop]
        rw [hres]
        simpa [framesOf] using hframes

/-- C4 witness: the index-append equation on the sample index, and resolving
the duplicated TIT2 identifier stores both decoded values in scan order. -/
theorem C4_duplicate_identifiers_preserved_witness :
    ((mapFind (mapStore [(exTIT2, [frameCoordinates.mk 6 20])] exTIT2
        ((mapFind [(exTIT2, [frameCoordinates.mk 6 20])] exTIT2).getD [] ++
          [frameCoordinates.mk 6 36])) exTIT2).getD [] =
      (mapFind [(exTIT2, [frameCoordinates.mk 6 20])] exTIT2).getD [] ++
        [frameCoordinates.mk 6 36]) ∧
    ((parseFramesCoordsWithID exD exTag exTIT2).2 = none ∧
     (framesOf (parseFramesCoordsWithID exD exTag exTIT2).1 exTIT2).map some =
       (framesOf exTag exTIT2).map some ++
         [frameCoordinates.mk 6 20, frameCoordinates.mk 6 36].map
           (decodeOk exD .text exTag.file.data)) :=
  ⟨C4_duplicate_identifiers_preserved.1 [(exTIT2, [frameCoordinates.mk 6 20])] exTIT2
     (frameCoordinates.mk 6 36),
   C4_duplicate_identifiers_preserved.2 exD exTag exTIT2 .text
     [frameCoordinates.mk 6 20, frameCoordinates.mk 6 36]
     (by decide) (by decide) (by decide) (by decide)⟩

theorem readFramesLoop_state (D : Decoders) (pf : ParseFuncKind) (id : List Nat) :
    ∀ (fcs : List frameCoordinates) (t : Tag),
      (readFramesLoop D pf id fcs t).1.framesCoords = t.framesCoords ∧
      (∀ id2, id2 ≠ id →
        mapFind (readFramesLoop D pf id fcs t).1.frames id2 = mapFind t.frames id2) := by
  intro fcs
  induction fcs with
  | nil =>
    intro t
    simp [readFramesLoop]
  | cons fc rest ih =>
    intro t
    rcases hrf : readFrame D pf t.file fc with e | ⟨fr, f1⟩
    · rw [readFramesLoop, hrf]
      simp
    · rw [readFramesLoop, hrf]
      have hrec := ih (AddFrame { t with file := f1 } id fr)
      refine ⟨by rw [hrec.1]; rfl, ?_⟩
      intro id2 hne
      rw [hrec.2 id2 hne]
      simp only [AddFrame]
      exact mapFind_store_ne _ _ hne

theorem resolve_preserves_disjoint (D : Decoders) (t : Tag) (id : List Nat)
    (t1 : Tag) (hdis : storeDisjoint t)
    (h : parseFramesCoordsWithID D t id = (t1, none)) : storeDisjoint t1 := by
  cases hfind : mapFind t.framesCoords id with
  | none =>
    have hcomp : parseFramesCoordsWithID D t id = (t, none) := by
      simp [parseFramesCoordsWithID, hfind]
    rw [h] at hcomp
    simp only [Prod.mk.injEq] at hcomp
    rw [hcomp.1]
    exact hdis
  | some fcs =>
    cases hpf : findParseFunc t id with
    | none =>
      have hcomp : parseFramesCoordsWithID D t id =
          ({ t with framesCoords := mapErase t.framesCoords id }, none) := by
        simp [parseFramesCoordsWithID, hfind, hpf]
      rw [h] at hcomp
      simp only [Prod.mk.injEq] at hcomp
      rw [hcomp.1]
      intro p hp
      have hp2 : p ∈ mapErase t.framesCoords id := hp
      obtain ⟨hpm, -⟩ := mem_mapErase hp2
      exact hdis p hpm
    | some pf =>
      rcases hloop : readFramesLoop D pf id fcs t with ⟨tl, el⟩
      have hst1 : tl.framesCoords = t.framesCoords := by
        have hs := (readFramesLoop_state D pf id fcs t).1
        rw [hloop] at hs
        exact hs
      have hst2 : ∀ id2, id2 ≠ id → mapFind tl.frames id2 = mapFind t.frames id2 := by
        intro id2 hne
        have hs := (readFramesLoop_state D pf id fcs t).2 id2 hne
        rw [hloop] at hs
        exact hs
      cases el with
      | some e2 =>
        have hcomp : parseFramesCoordsWithID D t id = (tl, some e2) := by
          simp [parseFramesCoordsWithID, hfind, hpf, hloop]
        rw [h] at hcomp
        simp at hcomp
      | none =>
        have hcomp : parseFramesCoordsWithID D t id =
            ({ tl with framesCoords := mapErase tl.framesCoords id }, none) := by
          simp [parseFramesCoordsWithID, hfind, hpf, hloop]
        rw [h] at hcomp
        simp only [Prod.mk.injEq] at hcomp
        rw [hcomp.1]
        intro p hp
        have hp2 : p ∈ mapErase tl.framesCoords id := hp
        obtain ⟨hpm, hpne⟩ := mem_mapErase hp2
        have hpm2 : p ∈ t.framesCoords := by
          rw [← hst1]
          exact hpm
        show mapFind tl.frames p.1 = none
        rw [hst2 p.1 hpne]
        exact hdis p hpm2

theorem parseAllFramesCoordsAux_disjoint (D : Decoders) :
    ∀ (ids : List (List Nat)) (t t1 : Tag), storeDisjoint t →
      parseAllFramesCoordsAux D ids t = (t1, none) → storeDisjoint t1 := by
  intro ids
  induction ids with
  | nil =>
    intro t t1 hd h
    rw [parseAllFramesCoordsAux] at h
    simp only [Prod.mk.injEq] at h
    exact h.1 ▸ hd
  | cons id rest ih =>
    intro t t1 hd h
    rcases hres : parseFramesCoordsWithID D t id with ⟨t2, e2⟩
    rw [parseAllFramesCoordsAux, hres] at h
    cases e2 with
    | none => exact ih t2 t1 (resolve_preserves_disjoint D t id t2 hd hres) h
    | some msg => simp at h

theorem findAllFramesLoop_step_seekErr (fuel : Nat) (t : Tag) (pos : Int)
    (e : String) (hlt : pos < t.originalSize)
    (hseek : File.seek t.file pos = .error e) :
    findAllFramesLoop (fuel + 1) t pos = some (t, some e) := by
  simp [findAllFramesLoop, if_pos hlt, hseek]

theorem findAllFramesLoop_step_hdrErr (fuel : Nat) (t : Tag) (pos : Int)
    (f1 : File) (e : String) (f2 : File) (hlt : pos < t.originalSize)
    (hseek : File.seek t.file pos = .ok f1)
    (hph : parseFrameHeader f1 = (.error e, f2)) :
    findAllFramesLoop (fuel + 1) t pos = some ({ t with file := f2 }, some e) := by
  simp [findAllFramesLoop, if_pos hlt, hseek, hph]

theorem findAllFramesLoop_step_ok (fuel : Nat) (t : Tag) (pos : Int)
    (f1 : File) (header : frameHeader) (f2 : File) (hlt : pos < t.originalSize)
    (hseek : File.seek t.file pos = .ok f1)
    (hph : parseFrameHeader f1 = (.ok header, f2)) :
    findAllFramesLoop (fuel + 1) t pos =
      findAllFramesLoop fuel
        { t with
            file := f2
            framesCoords := mapStore t.framesCoords header.ID
              ((mapFind t.framesCoords header.ID).getD [] ++
                [{ Len := header.FrameSize, Pos := pos + (frameHeaderSize : Int) }]) }
        (pos + (frameHeaderSize : Int) + header.FrameSize) := by
  simp [findAllFramesLoop, if_pos hlt, hseek, hph]

theorem findAllFramesLoop_frames :
    ∀ (fuel : Nat) (t : Tag) (pos : Int) (t1 : Tag) (e : Option String),
      findAllFramesLoop fuel t pos = some (t1, e) → t1.frames = t.frames := by
  intro fuel
  induction fuel with
  | zero =>
    intro t pos t1 e h
    simp [findAllFramesLoop] at h
  | succ fuel ih =>
    intro t pos t1 e h
    by_cases hlt : pos < t.originalSize
    · cases hseek : File.seek t.file pos with
      | error e2 =>
        rw [findAllFramesLoop_step_seekErr fuel t pos e2 hlt hseek] at h
        simp only [Option.some.injEq, Prod.mk.injEq] at h
        rw [← h.1]
      | ok f1 =>
        rcases hph : parseFrameHeader f1 with ⟨r, f2⟩
        cases r with
        | error e2 =>
          rw [findAllFramesLoop_step_hdrErr fuel t pos f1 e2 f2 hlt hseek hph] at h
          simp only [Option.some.injEq, Prod.mk.injEq] at h
          rw [← h.1]
        | ok header =>
          rw [findAllFramesLoop_step_ok fuel t pos f1 header f2 hlt hseek hph] at h
          have hrec := ih _ _ _ _ h
          exact hrec
    · rw [findAllFramesLoop, if_neg hlt] at h
      simp only [Option.some.injEq, Prod.mk.injEq] at h
      rw [← h.1]

theorem findAllFrames_frames (t : Tag) : (findAllFrames t).1.frames = t.frames := by
  rw [findAllFrames]
  cases hl : findAllFramesLoop (t.originalSize.toNat + 1) t (tagHeaderSize : Int) with
  | none => rfl
  | some r =>
    cases r with
    | mk tr er => exact findAllFramesLoop_frames _ _ _ _ _ hl

theorem parseTag_frames_nil (f : Option File) (t : Tag) (e : Option String)
    (h : parseTag f = (some t, e)) : t.frames = [] := by
  cases f with
  | none => simp [parseTag] at h
  | some fl =>
    rcases hph : parseHeader fl with ⟨r, f1⟩
    cases r with
    | error e2 =>
      have hcomp : parseTag (some fl) =
          (none, some ("Trying to parse tag header: " ++ e2)) := by
        simp [parseTag, hph]
      rw [h] at hcomp
      simp at hcomp
    | ok oh =>
      cases oh with
      | none =>
        have hcomp : parseTag (some fl) = (some (newTag f1 0 4), none) := by
          simp [parseTag, hph]
        rw [h] at hcomp
        simp only [Prod.mk.injEq, Option.some.injEq] at hcomp
        rw [hcomp.1]
        rfl
      | some hd =>
        by_cases hv : hd.Version < 3
        · have hcomp : parseTag (some fl) =
              (none, some "Unsupported version of ID3 tag") := by
            simp [parseTag, hph, hv]
          rw [h] at hcomp
          simp at hcomp
        · have hcomp : parseTag (some fl) =
              (some (findAllFrames
                (newTag f1 ((tagHeaderSize : Nat) + hd.FramesSize) hd.Version)).1,
               (findAllFrames
                (newTag f1 ((tagHeaderSize : Nat) + hd.FramesSize) hd.Version)).2) := by
            simp [parseTag, hph, hv]
          rw [h] at hcomp
          simp only [Prod.mk.injEq, Option.some.injEq] at hcomp
          rw [hcomp.1, findAllFrames_frames]
          rfl

/-- C9: after a completed parse, a completed single-identifier resolve and a
completed resolve-all, no identifier is simultaneously pending in the
coordinate index and present in the decoded store: the resolve that stores
an identifier's values deletes its coordinates in the same operation. -/
theorem C9_pending_resolved_disjoint :
    (∀ (f : Option File) (t : Tag) (e : Option String),
      parseTag f = (some t, e) → storeDisjoint t) ∧
    (∀ (D : Decoders) (t : Tag) (id : List Nat) (t1 : Tag),
      storeDisjoint t → parseFramesCoordsWithID D t id = (t1, none) →
      storeDisjoint t1) ∧
    (∀ (D : Decoders) (t t1 : Tag),
      storeDisjoint t → parseAllFramesCoords D t = (t1, none) → storeDisjoint t1) := by
  refine ⟨?_, ?_, ?_⟩
  · intro f t e h
    intro p hp
    rw [parseTag_frames_nil f t e h]
    rfl
  · intro D t id t1 hd h
    exact resolve_preserves_disjoint D t id t1 hd h
  · intro D t t1 hd h
    rw [parseAllFramesCoords] at h
    exact parseAllFramesCoordsAux_disjoint D _ t t1 hd h

/-- C9 witness: the sample parse yields a disjoint tag, and both resolve
operations preserve disjointness on it. -/
theorem C9_pending_resolved_disjoint_witness :
    storeDisjoint exTag ∧
    storeDisjoint (parseFramesCoordsWithID exD exTag exTIT2).1 ∧
    storeDisjoint (parseAllFramesCoords exD exTag).1 :=
  ⟨C9_pending_resolved_disjoint.1 (some exFile) exTag none (by rfl),
   C9_pending_resolved_disjoint.2.1 exD exTag exTIT2
     (parseFramesCoordsWithID exD exTag exTIT2).1
     (C9_pending_resolved_disjoint.1 (some exFile) exTag none (by rfl)) (by rfl),
   C9_pending_resolved_disjoint.2.2 exD exTag (parseAllFramesCoords exD exTag).1
     (C9_pending_resolved_disjoint.1 (some exFile) exTag none (by rfl)) (by rfl)⟩

theorem parseFrameHeader_size_nonneg (f : File) (h : frameHeader) (f2 : File)
    (hp : parseFrameHeader f = (.ok h, f2)) : 0 ≤ h.FrameSize := by
  rw [parseFrameHeader] at hp
  split at hp
  · simp at hp
  · simp only [Prod.mk.injEq, Except.ok.injEq] at hp
    rw [← hp.1]
    exact ParseSize_nonneg _

theorem findAllFramesLoop_isSome :
    ∀ (fuel : Nat) (t : Tag) (pos : Int),
      (t.originalSize - pos).toNat < fuel →
      (findAllFramesLoop fuel t pos).isSome = true := by
  intro fuel
  induction fuel with
  | zero =>
    intro t pos h
    omega
  | succ fuel ih =>
    intro t pos h
    by_cases hlt : pos < t.originalSize
    · cases hseek : File.seek t.file pos with
      | error e =>
        rw [findAllFramesLoop_step_seekErr fuel t pos e hlt hseek]
        rfl
      | ok f1 =>
        rcases hph : parseFrameHeader f1 with ⟨r, f2⟩
        cases r with
        | error e =>
          rw [findAllFramesLoop_step_hdrErr fuel t pos f1 e f2 hlt hseek hph]
          rfl
        | ok header =>
          rw [findAllFramesLoop_step_ok fuel t pos f1 header f2 hlt hseek hph]
          apply ih
          have hsz := parseFrameHeader_size_nonneg f1 header f2 hph
          have h10 : ((frameHeaderSize : Nat) : Int) = 10 := by
            simp [frameHeaderSize]
          show (t.originalSize - (pos + (frameHeaderSize : Int) + header.FrameSize)).toNat < fuel
          omega
    · rw [findAllFramesLoop, if_neg hlt]
      rfl

/-- C10: the structural scan terminates: every decoded frame size is
non-negative, so each iteration strictly advances the cursor by at least the
10-byte header size; originalSize - pos units of fuel always suffice, and in
particular the fuel findAllFrames supplies makes its fallback unreachable. -/
theorem C10_scan_terminates :
    (∀ data : List Nat, 0 ≤ ParseSize data) ∧
    (∀ (fuel : Nat) (t : Tag) (pos : Int),
      (t.originalSize - pos).toNat < fuel →
      (findAllFramesLoop fuel t pos).isSome = true) ∧
    (∀ t : Tag,
      (findAllFramesLoop (t.originalSize.toNat + 1) t (tagHeaderSize : Int)).isSome = true) := by
  refine ⟨ParseSize_nonneg, findAllFramesLoop_isSome, ?_⟩
  intro t
  apply findAllFramesLoop_isSome
  have h10 : ((tagHeaderSize : Nat) : Int) = 10 := by simp [tagHeaderSize]
  omega

/-- C10 witness: the size decoder is non-negative on the sample size field,
and the scan loop returns a result on the sample tags within the fuel
bound. -/
theorem C10_scan_terminates_witness :
    (0 : Int) ≤ ParseSize [0, 0, 0, 32] ∧
    ((exTagMid.originalSize - 10).toNat < 11 ∧
      (findAllFramesLoop 11 exTagMid 10).isSome = true) ∧
    (findAllFramesLoop (exTag.originalSize.toNat + 1) exTag
      (tagHeaderSize : Int)).isSome = true :=
  ⟨C10_scan_terminates.1 [0, 0, 0, 32],
   ⟨by decide, C10_scan_terminates.2.1 11 exTagMid 10 (by decide)⟩,
   C10_scan_terminates.2.2 exTag⟩

theorem File.seek_ok {f : File} {pos : Int} {f1 : File}
    (h : File.seek f pos = .ok f1) :
    0 ≤ pos ∧ f1 = { f with pos := pos.toNat } := by
  by_cases hc : pos < 0
  · rw [File.seek, if_pos hc] at h
    cases h
  · rw [File.seek, if_neg hc] at h
    simp only [Except.ok.injEq] at h
    exact ⟨not_lt.mp hc, h.symm⟩

theorem parseFrameHeader_ok (f : File)
    (hlen : f.pos + frameHeaderSize ≤ f.data.length) :
    parseFrameHeader f =
      (.ok { ID := (f.data.drop f.pos).take 4
             FrameSize := ParseSize (((f.data.drop f.pos).drop 4).take 4) },
       { f with
           pos := f.pos + frameHeaderSize
           reads := f.reads ++ (List.range frameHeaderSize).map (f.pos + ·) }) := by
  have hmin : (10 : Nat) ⊓ (f.data.length - f.pos) = 10 := by
    simp only [frameHeaderSize] at hlen
    omega
  have hif : ¬ (f.data.length - f.pos < 10) := by
    simp only [frameHeaderSize] at hlen
    omega
  simp [parseFrameHeader, File.readUpTo, List.length_take, List.length_drop,
        List.take_take, List.drop_take, frameHeaderSize, hmin, hif]

theorem parseFrameHeader_err (f : File)
    (hlen : f.data.length < f.pos + frameHeaderSize) :
    parseFrameHeader f =
      (.error "Size of frame header is less than expected",
       { f with
           pos := f.pos + ((f.data.drop f.pos).take frameHeaderSize).length
           reads := f.reads ++
             (List.range ((f.data.drop f.pos).take frameHeaderSize).length).map
               (f.pos + ·) }) := by
  have hc : f.data.length - f.pos < frameHeaderSize := by
    simp only [frameHeaderSize] at *
    omega
  simp [parseFrameHeader, File.readUpTo, List.length_take, List.length_drop, hc]

theorem coords_cases {m : List (List Nat × List frameCoordinates)} {fid : List Nat}
    {newfc : frameCoordinates} {p : List Nat × List frameCoordinates}
    {fc : frameCoordinates}
    (hp : p ∈ mapStore m fid ((mapFind m fid).getD [] ++ [newfc]))
    (hfc : fc ∈ p.2) :
    (∃ q ∈ m, fc ∈ q.2) ∨ fc = newfc := by
  rcases mem_mapStore hp with hold | hnew
  · exact Or.inl ⟨p, hold, hfc⟩
  · have hfc2 : fc ∈ (mapFind m fid).getD [] ++ [newfc] := by
      rw [hnew] at hfc
      exact hfc
    rcases List.mem_append.mp hfc2 with hm | hm
    · cases hf : mapFind m fid with
      | none =>
        rw [hf] at hm
        simp at hm
      | some l =>
        rw [hf] at hm
        exact Or.inl ⟨(fid, l), mapFind_mem hf, hm⟩
    · simp only [List.mem_singleton] at hm
      exact Or.inr hm

theorem coordsBound_store {m : List (List Nat × List frameCoordinates)}
    {pos sz : Int} {fid : List Nat} (h : coordsBound m pos) (hsz : 0 ≤ sz) :
    coordsBound
      (mapStore m fid ((mapFind m fid).getD [] ++
        [{ Len := sz, Pos := pos + (frameHeaderSize : Int) }]))
      (pos + (frameHeaderSize : Int) + sz) := by
  intro p hp fc hfc
  rcases coords_cases hp hfc with ⟨q, hq, hfcq⟩ | heq
  · have hb := h q hq fc hfcq
    have h10 : (0 : Int) ≤ (frameHeaderSize : Int) := Int.natCast_nonneg _
    omega
  · rw [heq]

theorem readsBound_append {rs : List Nat} {pos pos2 : Int} {k : Nat}
    (h : readsBound rs pos) (hpos : 0 ≤ pos) (hk : pos + (k : Int) ≤ pos2) :
    readsBound (rs ++ (List.range k).map (pos.toNat + ·)) pos2 := by
  intro o ho
  rcases List.mem_append.mp ho with hor | hon
  · have := h o hor
    omega
  · simp only [List.mem_map, List.mem_range] at hon
    obtain ⟨i, hi, rfl⟩ := hon
    have e1 : (pos.toNat : Int) = pos := Int.toNat_of_nonneg hpos
    push_cast
    omega

theorem disjointRC_append {rs : List Nat} {m : List (List Nat × List frameCoordinates)}
    {pos : Int} {k : Nat} (hd : disjointRC rs m) (hcb : coordsBound m pos)
    (hpos : 0 ≤ pos) :
    disjointRC (rs ++ (List.range k).map (pos.toNat + ·)) m := by
  intro o ho p hp fc hfc
  rcases List.mem_append.mp ho with hor | hon
  · exact hd o hor p hp fc hfc
  · right
    simp only [List.mem_map, List.mem_range] at hon
    obtain ⟨i, hi, rfl⟩ := hon
    have e1 : (pos.toNat : Int) = pos := Int.toNat_of_nonneg hpos
    have hb := hcb p hp fc hfc
    push_cast
    omega

theorem disjointRC_step {rs : List Nat} {m : List (List Nat × List frameCoordinates)}
    {pos sz : Int} {fid : List Nat} {k : Nat}
    (hd : disjointRC rs m) (hcb : coordsBound m pos) (hrb : readsBound rs pos)
    (hpos : 0 ≤ pos) (hk : k ≤ frameHeaderSize) :
    disjointRC (rs ++ (List.range k).map (pos.toNat + ·))
      (mapStore m fid ((mapFind m fid).getD [] ++
        [{ Len := sz, Pos := pos + (frameHeaderSize : Int) }])) := by
  intro o ho p hp fc hfc
  rcases List.mem_append.mp ho with hor | hon
  · rcases coords_cases hp hfc with ⟨q, hq, hfcq⟩ | heq
    · exact hd o hor q hq fc hfcq
    · left
      rw [heq]
      show (o : Int) < pos + (frameHeaderSize : Int)
      have := hrb o hor
      have h10 : (0 : Int) ≤ (frameHeaderSize : Int) := Int.natCast_nonneg _
      omega
  · simp only [List.mem_map, List.mem_range] at hon
    obtain ⟨i, hi, rfl⟩ := hon
    have e1 : (pos.toNat : Int) = pos := Int.toNat_of_nonneg hpos
    rcases coords_cases hp hfc with ⟨q, hq, hfcq⟩ | heq
    · right
      have hb := hcb q hq fc hfcq
      push_cast
      omega
    · left
      rw [heq]
      show ((pos.toNat + i : Nat) : Int) < pos + (frameHeaderSize : Int)
      have hk2 : (k : Int) ≤ (frameHeaderSize : Int) := by exact_mod_cast hk
      push_cast
      omega

theorem scan_noPayload :
    ∀ (fuel : Nat) (t : Tag) (pos : Int) (t1 : Tag) (e : Option String),
      scanInv t pos → noPayloadReads t →
      findAllFramesLoop fuel t pos = some (t1, e) → noPayloadReads t1 := by
  intro fuel
  induction fuel with
  | zero =>
    intro t pos t1 e hinv hnp h
    simp [findAllFramesLoop] at h
  | succ fuel ih =>
    intro t pos t1 e hinv hnp h
    by_cases hlt : pos < t.originalSize
    · cases hseek : File.seek t.file pos with
      | error e2 =>
        rw [findAllFramesLoop_step_seekErr fuel t pos e2 hlt hseek] at h
        simp only [Option.some.injEq, Prod.mk.injEq] at h
        rw [← h.1]
        exact hnp
      | ok f1 =>
        obtain ⟨hpos0, hf1⟩ := File.seek_ok hseek
        subst hf1
        by_cases hav : ({ t.file with pos := pos.toNat } : File).pos + frameHeaderSize ≤
            ({ t.file with pos := pos.toNat } : File).data.length
        · have hph := parseFrameHeader_ok _ hav
          rw [findAllFramesLoop_step_ok fuel t pos _ _ _ hlt hseek hph] at h
          have hsz := parseFrameHeader_size_nonneg _ _ _ hph
          refine ih _ _ _ _ ⟨?_, ?_⟩ ?_ h
          · exact coordsBound_store hinv.1 hsz
          · refine readsBound_append hinv.2 hpos0 ?_
            have h10 : (0 : Int) ≤ (frameHeaderSize : Int) := Int.natCast_nonneg _
            omega
          · exact disjointRC_step hnp hinv.1 hinv.2 hpos0 le_rfl
        · push_neg at hav
          have hph := parseFrameHeader_err _ hav
          rw [findAllFramesLoop_step_hdrErr fuel t pos _ _ _ hlt hseek hph] at h
          simp only [Option.some.injEq, Prod.mk.injEq] at h
          rw [← h.1]
          exact disjointRC_append hnp hinv.1 hpos0
    · rw [findAllFramesLoop, if_neg hlt] at h
      simp only [Option.some.injEq, Prod.mk.injEq] at h
      rw [← h.1]
      exact hnp

/-- C1: one scan step on a frame whose 10-byte header starts at the cursor
records exactly one coordinate entry whose length is the Size-Codec decode
of bytes 4-7 of the header and whose position is the cursor plus 10 (the
first payload byte), appends it at the end of that identifier's sequence,
advances the cursor past the payload to cursor + 10 + length, and reads
exactly the 10 header bytes; the lookup of the updated index returns the
old sequence with the new entry appended; and across a whole scan run no
byte offset inside any recorded payload range is ever read. -/
theorem C1_structural_scan :
    (∀ (fuel : Nat) (t : Tag) (pos : Int),
      pos < t.originalSize → 0 ≤ pos →
      pos.toNat + frameHeaderSize ≤ t.file.data.length →
      findAllFramesLoop (fuel + 1) t pos =
        findAllFramesLoop fuel
          { t with
              file := { t.file with
                pos := pos.toNat + frameHeaderSize
                reads := t.file.reads ++
                  (List.range frameHeaderSize).map (pos.toNat + ·) }
              framesCoords := mapStore t.framesCoords
                ((t.file.data.drop pos.toNat).take 4)
                ((mapFind t.framesCoords
                    ((t.file.data.drop pos.toNat).take 4)).getD [] ++
                  [{ Len := ParseSize (((t.file.data.drop pos.toNat).drop 4).take 4)
                     Pos := pos + (frameHeaderSize : Int) }]) }
          (pos + (frameHeaderSize : Int) +
            ParseSize (((t.file.data.drop pos.toNat).drop 4).take 4))) ∧
    (∀ (t : Tag) (fid : List Nat) (fc : frameCoordinates),
      coordsOf { t with framesCoords := (mapStore t.framesCoords fid
          (coordsOf t fid ++ [fc])) } fid = coordsOf t fid ++ [fc]) ∧
    (∀ (fuel : Nat) (t : Tag) (pos : Int) (t1 : Tag) (e : Option String),
      scanInv t pos → noPayloadReads t →
      findAllFramesLoop fuel t pos = some (t1, e) → noPayloadReads t1) := by
  refine ⟨?_, ?_, scan_noPayload⟩
  · intro fuel t pos h1 h2 h3
    have hseek : File.seek t.file pos = .ok { t.file with pos := pos.toNat } := by
      rw [File.seek, if_neg (not_lt.mpr h2)]
    have hav : ({ t.file with pos := pos.toNat } : File).pos + frameHeaderSize ≤
        ({ t.file with pos := pos.toNat } : File).data.length := h3
    have hph := parseFrameHeader_ok _ hav
    rw [findAllFramesLoop_step_ok fuel t pos _ _ _ h1 hseek hph]
  · intro t fid fc
    simp [coordsOf, mapFind_store_self]

/-- C1 witness: the step equation at the start of the XXXX sample scan, the
index-append lookup on the sample index, and payload-read disjointness of
the completed sample scan. -/
theorem C1_structural_scan_witness :
    (findAllFramesLoop 6 exScanStart 10 =
      findAllFramesLoop 5
        { exScanStart with
            file := { exScanStart.file with
              pos := (10 : Int).toNat + frameHeaderSize
              reads := exScanStart.file.reads ++
                (List.range frameHeaderSize).map ((10 : Int).toNat + ·) }
            framesCoords := mapStore exScanStart.framesCoords
              ((exScanStart.file.data.drop (10 : Int).toNat).take 4)
              ((mapFind exScanStart.framesCoords
                  ((exScanStart.file.data.drop (10 : Int).toNat).take 4)).getD [] ++
                [{ Len := ParseSize
                     (((exScanStart.file.data.drop (10 : Int).toNat).drop 4).take 4)
                   Pos := (10 : Int) + (frameHeaderSize : Int) }]) }
        ((10 : Int) + (frameHeaderSize : Int) +
          ParseSize (((exScanStart.file.data.drop (10 : Int).toNat).drop 4).take 4))) ∧
    coordsOf { exTagUnknown with framesCoords := (mapStore exTagUnknown.framesCoords
        exXXXX (coordsOf exTagUnknown exXXXX ++ [{ Len := 1, Pos := 2 }])) } exXXXX =
      coordsOf exTagUnknown exXXXX ++ [{ Len := 1, Pos := 2 }] ∧
    noPayloadReads exScanResult :=
  ⟨C1_structural_scan.1 5 exScanStart 10 (by decide) (by decide) (by decide),
   C1_structural_scan.2.1 exTagUnknown exXXXX { Len := 1, Pos := 2 },
   C1_structural_scan.2.2 17 exScanStart 10 exScanResult none
     (by
       unfold scanInv coordsBound readsBound
       exact ⟨by decide, by decide⟩)
     (by
       unfold noPayloadReads disjointRC
       decide)
     (by rfl)⟩

end Id3v2
